import Mathlib

/-!
Verification development for the OPC-UA diagnostic tool's protocol
orchestration core: a shallow embedding, in Lean 4, of the network
diagnostic pipeline (`src/network/diagnostics.rs`), the address-space
crawler (`src/opcua/crawler.rs`), the subscription manager and
subscription state (`src/opcua/subscription_manager.rs`,
`src/opcua/subscription.rs`), and the session wrapper
(`src/opcua/client.rs`), together with theorems settling the stated
properties of those components.

Modelling conventions:
* Rust `String`/`&str` values are embedded as `List Char` (`Str` below),
  so that the exact character-level operations of the source
  (`trim`, `strip_prefix`, `split`, `rsplitn`, `parse::<u16>`) can be
  mirrored and reasoned about.
* Rust `HashMap`/`HashSet` values are embedded as `κ → Option ν`
  function maps / `List` visited sets with the source's
  insert/remove/contains semantics.
* `f64` values are embedded as `ℚ` (exact arithmetic); the claims
  settled here depend only on which values are numeric, never on
  IEEE-754 rounding.
* Wall-clock quantities (step durations, the "now" timestamp fallback)
  and the i18n display strings are inputs/outputs of the environment:
  durations and localized detail texts are not part of any claim and are
  omitted from the embedded records; the receipt wall-clock time is
  passed to `MonitoredData.update` as an explicit argument.
* Asynchronous effects (`tokio` channels, the cancellation token, TCP
  connects, DNS, endpoint discovery) are embedded as explicit oracle
  functions: `cancel : Nat → Bool` gives the answer of the n-th
  `is_cancelled()` call, and DNS / TCP / discovery are functions
  provided as parameters.
-/

/-- Rust strings, embedded at the character-list level. -/
abbrev Str := List Char

namespace StrOps

/-- Does `p` occur at the start of `s`?  (`str::starts_with`). -/
def startsWithL : Str → Str → Bool
  | [], _ => true
  | _ :: _, [] => false
  | a :: p, b :: s => a = b && startsWithL p s

/-- Does `p` occur as a contiguous subsequence of `s`?  (`str::contains`). -/
def hasSubSeq (p : Str) : Str → Bool
  | [] => p.isEmpty
  | b :: rest => startsWithL p (b :: rest) || hasSubSeq p rest

/-- `str::strip_prefix`: remove `p` from the front of `s` when present. -/
def dropStart (p s : Str) : Option Str :=
  if startsWithL p s then some (s.drop p.length) else none

/-- `str::trim` (whitespace removal at both ends). -/
def trim (s : Str) : Str :=
  ((s.dropWhile Char.isWhitespace).reverse.dropWhile Char.isWhitespace).reverse

/-- `str::rsplitn(2, c)`: split at the LAST occurrence of `c`, giving
`some (before, after)`, or `none` when `c` does not occur. -/
def rsplitOnceRight (c : Char) (s : Str) : Option (Str × Str) :=
  match (s.reverse).span (· ≠ c) with
  | (_, []) => none
  | (afterRev, _ :: beforeRev) => some (beforeRev.reverse, afterRev.reverse)

/-- Numeric value of a digit string. -/
def digitsVal (s : Str) : Nat :=
  s.foldl (fun a c => a * 10 + (c.toNat - '0'.toNat)) 0

/-- `str::parse::<u16>()`: optional leading `+`, then one or more
decimal digits, value at most `65535`. -/
def parseU16 (s : Str) : Option Nat :=
  let digits := match s with
    | '+' :: rest => rest
    | _ => s
  if digits.isEmpty then none
  else if digits.all Char.isDigit then
    let v := digitsVal digits
    if v ≤ 65535 then some v else none
  else none

theorem startsWithL_iff (p s : Str) : startsWithL p s = true ↔ ∃ r, s = p ++ r := by
  induction p generalizing s with
  | nil => simp [startsWithL]
  | cons a p ih =>
    cases s with
    | nil => simp [startsWithL]
    | cons b s =>
      simp only [startsWithL, Bool.and_eq_true, decide_eq_true_eq, ih]
      constructor
      · rintro ⟨rfl, r, rfl⟩; exact ⟨r, rfl⟩
      · rintro ⟨r, h⟩
        injection h with h1 h2
        exact ⟨h1.symm, r, h2⟩

theorem hasSubSeq_iff (p s : Str) : hasSubSeq p s = true ↔ ∃ u v, s = u ++ p ++ v := by
  induction s with
  | nil =>
    simp only [hasSubSeq, List.isEmpty_iff]
    constructor
    · rintro rfl; exact ⟨[], [], rfl⟩
    · rintro ⟨u, v, h⟩
      rcases List.append_eq_nil.mp h.symm with ⟨h1, h2⟩
      exact (List.append_eq_nil.mp h1).2
  | cons b rest ih =>
    simp only [hasSubSeq, Bool.or_eq_true, startsWithL_iff, ih]
    constructor
    · rintro (⟨r, h⟩ | ⟨u, v, h⟩)
      · exact ⟨[], r, by simpa using h⟩
      · exact ⟨b :: u, v, by simp [h]⟩
    · rintro ⟨u, v, h⟩
      cases u with
      | nil => exact Or.inl ⟨v, by simpa using h⟩
      | cons x u =>
        injection h with h1 h2
        exact Or.inr ⟨u, v, h2⟩

/-- If `s` has no `://` occurrence then it does not start with `opc.tcp://`. -/
theorem not_startsWith_scheme_of_not_hasSubSeq (s : Str)
    (h : hasSubSeq ("://".toList) s = false) :
    startsWithL ("opc.tcp://".toList) s = false := by
  by_contra hne
  have hs : startsWithL ("opc.tcp://".toList) s = true := by
    cases hstart : startsWithL ("opc.tcp://".toList) s with
    | false => exact absurd hstart hne
    | true => rfl
  obtain ⟨r, rfl⟩ := (startsWithL_iff _ _).mp hs
  have : hasSubSeq ("://".toList) ("opc.tcp://".toList ++ r) = true := by
    refine (hasSubSeq_iff _ _).mpr ⟨"opc.tcp".toList, r, ?_⟩
    rfl
  rw [this] at h
  exact absurd h (by simp)

end StrOps

open StrOps

namespace Diagnostics

/-- `StepStatus` (src/network/diagnostics.rs). -/
inductive StepStatus where
  | Pending
  | Running
  | Success
  | Warning
  | Failed
deriving DecidableEq

/-- `StepId` (src/network/diagnostics.rs). -/
inductive StepId where
  | ValidateInput
  | ResolveDns
  | ScanPorts
  | DiscoverEndpoints
deriving DecidableEq

/-- `DiagnosticStep` (src/network/diagnostics.rs).  The localized `name`
and `details` texts and the wall-clock `duration_ms` are presentation /
timing data outside the scope of the settled claims and are omitted. -/
structure DiagnosticStep where
  id : StepId
  status : StepStatus
deriving DecidableEq

/-- `ParsedInput` (src/network/diagnostics.rs). -/
structure ParsedInput where
  host : Str
  port : Option Nat
  had_scheme : Bool
  errors : List Str
deriving DecidableEq

/-- `ParsedInput::is_valid`. -/
def ParsedInput.is_valid (p : ParsedInput) : Bool :=
  p.errors.isEmpty && !p.host.isEmpty

/-- `ParsedInput::to_url`: `format!("opc.tcp://{}:{}", self.host, port)`. -/
def ParsedInput.to_url (p : ParsedInput) (port : Nat) : Str :=
  "opc.tcp://".toList ++ p.host ++ ':' :: Nat.toDigits 10 port

/-- `PortScanResult` (src/network/diagnostics.rs). -/
structure PortScanResult where
  port : Nat
  is_open : Bool
deriving DecidableEq

/-- `EndpointInfo` (src/network/discovery.rs). -/
structure EndpointInfo where
  security_policy_name : Str
  security_mode : Str
  has_certificate : Bool
  user_tokens : List Str
  endpoint_url : Str
deriving DecidableEq

/-- `DiagnosticResult` (src/network/diagnostics.rs); the wall-clock
`total_duration_ms` field is omitted. -/
structure DiagnosticResult where
  steps : List DiagnosticStep
  overall_success : Bool
  open_ports : List PortScanResult
  recommended_url : Option Str
  endpoints : List EndpointInfo
deriving DecidableEq

/-- `OPCUA_COMMON_PORTS` (src/network/diagnostics.rs). -/
def OPCUA_COMMON_PORTS : List Nat := [4840, 4841, 4842, 4843, 48010, 48020, 62541]

/-- The IPv6 branch of `parse_user_input` (`host_port` starts with `[`):
take everything through the first `]` as the host; if a `:` follows,
try to parse the remainder as a port. -/
def parseIpv6 (host_port : Str) : Str × Option Nat × List Str :=
  match host_port.span (· ≠ ']') with
  | (_, []) => ([], none, ["Invalid IPv6 address format".toList])
  | (upto, _ :: after_bracket) =>
    let host := upto ++ [']']
    match after_bracket with
    | ':' :: port_str =>
      match parseU16 port_str with
      | some p => (host, some p, [])
      | none => (host, none, [("Invalid port: ".toList ++ port_str)])
    | _ => (host, none, [])

/-- The IPv4/hostname branch of `parse_user_input`:
`rsplitn(2, ':')` then try the part after the last `:` as a port;
on failure the whole `host_port` is the host. -/
def parseHostPort (host_port : Str) : Str × Option Nat × List Str :=
  match rsplitOnceRight ':' host_port with
  | none => (host_port, none, [])
  | some (before, after) =>
    match parseU16 after with
    | some p => (before, some p, [])
    | none => (host_port, none, [])

/-- `parse_user_input` (src/network/diagnostics.rs): trim, handle the
`opc.tcp://` scheme (any other scheme is an error), drop any `/path`,
then split host and port (IPv6 brackets or `rsplitn(2, ':')`), and
finally reject an empty host. -/
def parse_user_input (input : Str) : ParsedInput :=
  let trimmed := trim input
  if trimmed.isEmpty then
    { host := [], port := none, had_scheme := false,
      errors := ["Input cannot be empty".toList] }
  else
    let schemeSplit : Bool × Option Str :=
      match dropStart ("opc.tcp://".toList) trimmed with
      | some rest => (true, some rest)
      | none =>
        if hasSubSeq ("://".toList) trimmed then (false, none)
        else (false, some trimmed)
    match schemeSplit with
    | (_, none) =>
      { host := [], port := none, had_scheme := false,
        errors := ["Only opc.tcp:// scheme is supported".toList] }
    | (had_scheme, some without_scheme) =>
      let host_port := without_scheme.takeWhile (· ≠ '/')
      let (host, port, errors) :=
        if startsWithL ['['] host_port then parseIpv6 host_port
        else parseHostPort host_port
      let errors := if host.isEmpty
        then errors ++ ["Host cannot be empty".toList]
        else errors
      { host := host, port := port, had_scheme := had_scheme, errors := errors }

example : parse_user_input ("192.168.1.100".toList) =
    { host := "192.168.1.100".toList, port := none, had_scheme := false, errors := [] } := by
  decide

example : parse_user_input ("192.168.1.100:4840".toList) =
    { host := "192.168.1.100".toList, port := some 4840, had_scheme := false, errors := [] } := by
  decide

example : parse_user_input ("opc.tcp://myserver.local:4840/UA/Server".toList) =
    { host := "myserver.local".toList, port := some 4840, had_scheme := true, errors := [] } := by
  decide

example : (parse_user_input ("http://192.168.1.100:4840".toList)).is_valid = false := by
  decide

example : (parse_user_input ("".toList)).is_valid = false := by decide

example : parse_user_input ("myhost:abc".toList) =
    { host := "myhost:abc".toList, port := none, had_scheme := false, errors := [] } := by
  decide

end Diagnostics

namespace Diagnostics

/-- The `ports_to_scan` computation of `run_diagnostic`: the parsed port
when the user specified one, else the well-known OPC-UA ports. -/
def candidatePorts (parsed : ParsedInput) : List Nat :=
  match parsed.port with
  | some p => [p]
  | none => OPCUA_COMMON_PORTS

/-- The `ScanPorts` loop of `run_diagnostic`: for each candidate port
(in order) check the cancellation token (`break` when set), then attempt
a TCP connect to `format!("{}:{}", host, port)` through the `tcpOpen`
oracle, recording an open/closed flag per port.  The second component
threads the count of `is_cancelled()` calls made so far. -/
def scan_ports (host : Str) (ports : List Nat) (tcpOpen : Str → Bool)
    (cancel : Nat → Bool) (k : Nat) : List PortScanResult × Nat :=
  match ports with
  | [] => ([], k)
  | p :: rest =>
    if cancel k then ([], k + 1)
    else
      let addr := host ++ ':' :: Nat.toDigits 10 p
      let opn := tcpOpen addr
      let (others, k') := scan_ports host rest tcpOpen cancel (k + 1)
      (⟨p, opn⟩ :: others, k')

/-- The `DiscoverEndpoints` loop of `run_diagnostic`: for each open port
(in order) check the cancellation token (`break` when set), then attempt
endpoint discovery against `parsed.to_url(port)`; stop at the first port
whose discovery yields a non-empty endpoint list. -/
def discover_loop (parsed : ParsedInput) (open_ports : List PortScanResult)
    (discover : Str → Except Str (List EndpointInfo))
    (cancel : Nat → Bool) (k : Nat) : Option (EndpointInfo × List EndpointInfo) × Nat :=
  match open_ports with
  | [] => (none, k)
  | pr :: rest =>
    if cancel k then (none, k + 1)
    else
      match discover (parsed.to_url pr.port) with
      | .ok (e :: es) => (some (e, es), k + 1)
      | _ => discover_loop parsed rest discover cancel (k + 1)

/-- `run_diagnostic` (src/network/diagnostics.rs), as a pure function of
its input string and of oracles for the environment:
`resolve` models `format!("{}:4840", host).to_socket_addrs()` (the list
of resolved addresses rendered as IP strings), `tcpOpen` models a
2-second-timeout `TcpStream::connect` attempt, `discover` models
`discovery::discover_endpoints`, and `cancel n` is the answer of the
n-th `is_cancelled()` call.  Progress-channel messages and wall-clock
durations are not part of the returned value and are not modelled. -/
def run_diagnostic (input : Str) (resolve : Str → Except Str (List Str))
    (tcpOpen : Str → Bool) (discover : Str → Except Str (List EndpointInfo))
    (cancel : Nat → Bool) : DiagnosticResult :=
  let parsed := parse_user_input input
  -- Step 1: Validate input
  if !parsed.is_valid then
    { steps := [⟨.ValidateInput, .Failed⟩], overall_success := false,
      open_ports := [], recommended_url := none, endpoints := [] }
  else
    let steps1 : List DiagnosticStep := [⟨.ValidateInput, .Success⟩]
    if cancel 0 then
      { steps := steps1, overall_success := false,
        open_ports := [], recommended_url := none, endpoints := [] }
    else
      -- Step 2: Resolve DNS (with the fixed placeholder port 4840)
      match resolve (parsed.host ++ ":4840".toList) with
      | .error _ =>
        { steps := steps1 ++ [⟨.ResolveDns, .Failed⟩], overall_success := false,
          open_ports := [], recommended_url := none, endpoints := [] }
      | .ok [] =>
        { steps := steps1 ++ [⟨.ResolveDns, .Failed⟩], overall_success := false,
          open_ports := [], recommended_url := none, endpoints := [] }
      | .ok (ip :: _) =>
        let steps2 := steps1 ++ [⟨.ResolveDns, .Success⟩]
        if cancel 1 then
          { steps := steps2, overall_success := false,
            open_ports := [], recommended_url := none, endpoints := [] }
        else
          -- Step 3: Scan ports
          let ports_to_scan : List Nat := candidatePorts parsed
          let resolved_ip : Option Str := some ip
          let host := resolved_ip.getD parsed.host
          let (scanned, k') := scan_ports host ports_to_scan tcpOpen cancel 2
          let open_count := (scanned.filter (·.is_open)).length
          if open_count = 0 then
            { steps := steps2 ++ [⟨.ScanPorts, .Failed⟩], overall_success := false,
              open_ports := scanned, recommended_url := none, endpoints := [] }
          else
            let steps3 := steps2 ++ [⟨.ScanPorts, .Success⟩]
            if cancel k' then
              { steps := steps3, overall_success := false,
                open_ports := scanned, recommended_url := none, endpoints := [] }
            else
              -- Step 4: Discover endpoints on each open port, in order
              match discover_loop parsed (scanned.filter (·.is_open)) discover cancel (k' + 1) with
              | (some (e, es), _) =>
                { steps := steps3 ++ [⟨.DiscoverEndpoints, .Success⟩],
                  overall_success := true,
                  open_ports := scanned,
                  recommended_url := some e.endpoint_url,
                  endpoints := e :: es }
              | (none, _) =>
                { steps := steps3 ++ [⟨.DiscoverEndpoints, .Warning⟩],
                  overall_success := false,
                  open_ports := scanned,
                  recommended_url := none, endpoints := [] }

end Diagnostics

namespace Opcua

/-- `NodeClass` (src/opcua/browser.rs). -/
inductive NodeClass where
  | Object
  | Variable
  | Method
  | ObjectType
  | VariableType
  | ReferenceType
  | DataType
  | View
  | Unknown
deriving DecidableEq

/-- `BrowsedNode` (src/opcua/browser.rs).  Node identifiers are embedded
by their string form (`NodeId::to_string`), which is also exactly what
the crawler's visited set stores. -/
structure BrowsedNode where
  node_id : Str
  browse_name : Str
  display_name : Str
  node_class : NodeClass
  type_definition : Option Str
  has_children : Bool
deriving DecidableEq

/-- `CrawlConfig` (src/opcua/crawler.rs). -/
structure CrawlConfig where
  max_depth : Nat
  max_nodes : Nat
  start_node : Str

/-- The crawler's per-invocation mutable state: the visited set of node
identifier strings (a `HashSet`, embedded as the list of inserted
identifiers, newest first) and the accumulated result list. -/
structure CrawlState where
  visited : List Str
  results : List BrowsedNode

/-- The `for child in children` body of `Crawler::crawl_recursive`:
append each child to the results unconditionally, recurse (through
`step`) when `child.has_children`, and after that, break out of the loop
once `results.len() >= max_nodes`. -/
def crawl_children (step : Str → CrawlState → CrawlState) (max_nodes : Nat) :
    List BrowsedNode → CrawlState → CrawlState
  | [], st => st
  | child :: rest, st =>
    let st1 : CrawlState := { st with results := st.results ++ [child] }
    let st2 := if child.has_children then step child.node_id st1 else st1
    if max_nodes ≤ st2.results.length then st2
    else crawl_children step max_nodes rest st2

/-- `Crawler::crawl_recursive` (src/opcua/crawler.rs).  The Rust
recursion carries the current `depth` upward and returns as soon as
`depth >= max_depth`; here the same control is carried as the remaining
depth budget `fuel = max_depth - depth`, which makes the recursion
structural.  With `fuel = 0` the call returns its state unchanged
(before touching the visited set), exactly like the Rust depth guard;
otherwise the node is dropped if already visited, else marked visited
and browsed, a browse error being a logged skip. -/
def crawl_recursive (browse : Str → Except Str (List BrowsedNode))
    (max_nodes : Nat) : Nat → Str → CrawlState → CrawlState
  | 0, _, st => st
  | fuel + 1, node_id, st =>
    if node_id ∈ st.visited then st
    else
      let st' : CrawlState := { st with visited := node_id :: st.visited }
      match browse node_id with
      | .error _ => st'
      | .ok children =>
        crawl_children (crawl_recursive browse max_nodes fuel) max_nodes children st'

/-- `Crawler::crawl`: clear the state, then recurse from
`config.start_node` at depth `0` (depth budget `max_depth`). -/
def crawl_state (browse : Str → Except Str (List BrowsedNode))
    (config : CrawlConfig) : CrawlState :=
  crawl_recursive browse config.max_nodes config.max_depth config.start_node ⟨[], []⟩

/-- `Crawler::crawl` result list (src/opcua/crawler.rs). -/
def crawl (browse : Str → Except Str (List BrowsedNode))
    (config : CrawlConfig) : List BrowsedNode :=
  (crawl_state browse config).results

end Opcua

namespace Opcua

/-- A node with the given identifier that the crawler descends into
(container-like, `has_children = true`). -/
def containerNode (id : Str) : BrowsedNode :=
  { node_id := id, browse_name := id, display_name := id,
    node_class := .Object, type_definition := none, has_children := true }

/-- A leaf node with the given identifier (`has_children = false`). -/
def leafNode (id : Str) : BrowsedNode :=
  { node_id := id, browse_name := id, display_name := id,
    node_class := .Variable, type_definition := none, has_children := false }

/-- A chain-shaped node graph `S → a → b → c`, every intermediate node
container-like: browsing `S` yields `a`, browsing `a` yields `b`,
browsing `b` yields `c`. -/
def chainBrowse : Str → Except Str (List BrowsedNode) :=
  fun id =>
    if id = "S".toList then .ok [containerNode ("a".toList)]
    else if id = "a".toList then .ok [containerNode ("b".toList)]
    else if id = "b".toList then .ok [leafNode ("c".toList)]
    else .ok []

/-- A two-node cyclic graph: browsing `S` yields `a`, browsing `a`
yields `S` again, both container-like. -/
def cyclicBrowse : Str → Except Str (List BrowsedNode) :=
  fun id =>
    if id = "S".toList then .ok [containerNode ("a".toList)]
    else if id = "a".toList then .ok [containerNode ("S".toList)]
    else .ok []

example :
    (crawl chainBrowse { max_depth := 3, max_nodes := 1, start_node := "S".toList }).length = 3 := by
  decide

example :
    crawl cyclicBrowse { max_depth := 10, max_nodes := 100, start_node := "S".toList }
      = [containerNode ("a".toList), containerNode ("S".toList)] := by
  decide

end Opcua

namespace Opcua

/-- The status codes of the `opcua` crate that the subscription code
manipulates, plus a catch-all for any other raw code. -/
inductive StatusCode where
  | Good
  | BadWaitingForInitialData
  | Other (raw : Nat)
deriving DecidableEq

/-- `opcua::types::Variant`, restricted to the constructors that
`variant_to_f64` (src/opcua/subscription.rs) distinguishes.  Numeric
payloads are embedded as exact integers / rationals; the claims settled
here depend only on which variants are numeric. -/
inductive Variant where
  | Boolean (b : Bool)
  | SByte (v : Int)
  | Byte (v : Nat)
  | Int16 (v : Int)
  | UInt16 (v : Nat)
  | Int32 (v : Int)
  | UInt32 (v : Nat)
  | Int64 (v : Int)
  | UInt64 (v : Nat)
  | Float (v : ℚ)
  | Double (v : ℚ)
  | String (s : Str)
  | DateTime (millis : Int)
  | ByteString (bytes : List Nat)
  | Empty
deriving DecidableEq

/-- `variant_to_f64` (src/opcua/subscription.rs): numeric variants
(booleans as 0/1) convert; everything else is `none`. -/
def variant_to_f64 : Variant → Option ℚ
  | .Boolean b => some (if b then 1 else 0)
  | .SByte v => some (v : ℚ)
  | .Byte v => some (v : ℚ)
  | .Int16 v => some (v : ℚ)
  | .UInt16 v => some (v : ℚ)
  | .Int32 v => some (v : ℚ)
  | .UInt32 v => some (v : ℚ)
  | .Int64 v => some (v : ℚ)
  | .UInt64 v => some (v : ℚ)
  | .Float v => some v
  | .Double v => some v
  | _ => none

/-- `MAX_HISTORY_POINTS` (src/opcua/subscription.rs). -/
def MAX_HISTORY_POINTS : Nat := 600

/-- The `while self.history.len() > MAX_HISTORY_POINTS { pop_front }`
eviction loop of `MonitoredData::update`. -/
def trimHistory : List (ℚ × ℚ) → List (ℚ × ℚ)
  | [] => []
  | x :: xs => if MAX_HISTORY_POINTS < (x :: xs).length then trimHistory xs else x :: xs

/-- `opcua::types::DataValue`, restricted to the fields
`MonitoredData::update` reads.  `DateTime` values are embedded as their
millisecond timestamps. -/
structure DataValue where
  value : Option Variant
  status : Option StatusCode
  source_timestamp : Option Int
  server_timestamp : Option Int

/-- `MonitoredData` (src/opcua/subscription.rs). -/
structure MonitoredData where
  node_id : Str
  display_name : Str
  monitored_item_id : Option Nat
  value : Option Variant
  status : StatusCode
  source_timestamp : Option Int
  server_timestamp : Option Int
  history : List (ℚ × ℚ)
  show_in_trend : Bool
  trend_color : Option (Nat × Nat × Nat)

/-- `MonitoredData::new`. -/
def MonitoredData.new (node_id display_name : Str) : MonitoredData :=
  { node_id := node_id, display_name := display_name,
    monitored_item_id := none, value := none,
    status := .BadWaitingForInitialData,
    source_timestamp := none, server_timestamp := none,
    history := [], show_in_trend := false, trend_color := none }

/-- The history timestamp of `MonitoredData::update`: the source
timestamp in seconds (`timestamp_millis() as f64 / 1000.0`) when
present, else the wall clock at receipt (`now`, an explicit input of the
embedding). -/
def historyTimestamp (source_timestamp : Option Int) (now : ℚ) : ℚ :=
  match source_timestamp with
  | some ms => (ms : ℚ) / 1000
  | none => now

/-- `MonitoredData::update` (src/opcua/subscription.rs): overwrite
value/status/timestamps; when the new value is numeric, append
`(timestamp_seconds, numeric_value)` to the history and evict from the
front while the length exceeds `MAX_HISTORY_POINTS`. -/
def MonitoredData.update (m : MonitoredData) (data_value : DataValue) (now : ℚ) :
    MonitoredData :=
  let m := { m with value := data_value.value,
                    status := data_value.status.getD .Good,
                    source_timestamp := data_value.source_timestamp,
                    server_timestamp := data_value.server_timestamp }
  match m.value with
  | some variant =>
    match variant_to_f64 variant with
    | some numeric =>
      let timestamp := historyTimestamp m.source_timestamp now
      { m with history := trimHistory (m.history ++ [(timestamp, numeric)]) }
    | none => m
  | none => m

end Opcua

/-- `HashMap::insert` on a function map. -/
def mapInsert {κ ν : Type} [DecidableEq κ] (m : κ → Option ν) (k : κ) (v : ν) :
    κ → Option ν :=
  fun k' => if k' = k then some v else m k'

/-- `HashMap::remove` on a function map. -/
def mapRemove {κ ν : Type} [DecidableEq κ] (m : κ → Option ν) (k : κ) :
    κ → Option ν :=
  fun k' => if k' = k then none else m k'

namespace Opcua

/-- `SubscriptionState` (src/opcua/subscription.rs): the optional active
subscription id and the three co-maintained maps. -/
structure SubscriptionState where
  subscription_id : Option Nat
  handle_to_node : Nat → Option Str
  node_to_handle : Str → Option Nat
  handle_to_server_id : Nat → Option Nat

/-- `SubscriptionState::default()`. -/
def SubscriptionState.init : SubscriptionState :=
  { subscription_id := none,
    handle_to_node := fun _ => none,
    node_to_handle := fun _ => none,
    handle_to_server_id := fun _ => none }

/-- `SubscriptionState::register_item`: insert the item into all three
maps. -/
def SubscriptionState.register_item (s : SubscriptionState)
    (node_id : Str) (monitored_item_id handle : Nat) : SubscriptionState :=
  { s with handle_to_node := mapInsert s.handle_to_node handle node_id,
           node_to_handle := mapInsert s.node_to_handle node_id handle,
           handle_to_server_id := mapInsert s.handle_to_server_id handle monitored_item_id }

/-- `SubscriptionState::unregister_by_node`: look the node's handle up,
remove the node from all three maps, and return the removed
server-assigned item id (if any). -/
def SubscriptionState.unregister_by_node (s : SubscriptionState) (node_id : Str) :
    Option Nat × SubscriptionState :=
  match s.node_to_handle node_id with
  | some handle =>
    (s.handle_to_server_id handle,
     { s with node_to_handle := mapRemove s.node_to_handle node_id,
              handle_to_node := mapRemove s.handle_to_node handle,
              handle_to_server_id := mapRemove s.handle_to_server_id handle })
  | none => (none, s)

/-- `SubscriptionState::clear`. -/
def SubscriptionState.clear (_ : SubscriptionState) : SubscriptionState :=
  SubscriptionState.init

/-- `SubscriptionState::get_node_id`. -/
def SubscriptionState.get_node_id (s : SubscriptionState) (handle : Nat) : Option Str :=
  s.handle_to_node handle

/-- One operation on a `SubscriptionState`, for reasoning about operation
sequences. -/
inductive SubOp where
  | register (node : Str) (item_id handle : Nat)
  | unregister (node : Str)
  | clear
deriving DecidableEq

/-- Apply one operation. -/
def applyOp (s : SubscriptionState) : SubOp → SubscriptionState
  | .register node item_id handle => s.register_item node item_id handle
  | .unregister node => (s.unregister_by_node node).2
  | .clear => s.clear

/-- Run a sequence of operations, first to last. -/
def runOps (s : SubscriptionState) : List SubOp → SubscriptionState
  | [] => s
  | op :: rest => runOps (applyOp s op) rest

/-- The handles used by the `register_item` operations of a sequence. -/
def registerHandles : List SubOp → List Nat
  | [] => []
  | .register _ _ handle :: rest => handle :: registerHandles rest
  | _ :: rest => registerHandles rest

/-- Executable well-formedness of an operation sequence from a given
state: every `register_item` targets a handle and a node that are not
currently registered. -/
def opsOk (s : SubscriptionState) : List SubOp → Bool
  | [] => true
  | op :: rest =>
    (match op with
     | .register node _ handle =>
       (s.node_to_handle node).isNone && (s.handle_to_node handle).isNone &&
         (s.handle_to_server_id handle).isNone
     | _ => true) && opsOk (applyOp s op) rest

/-- The mutual-consistency invariant of the three maps: every entry of
one map has its mirror entries in the other two. -/
def Mirror (s : SubscriptionState) : Prop :=
  (∀ h n, s.handle_to_node h = some n →
    s.node_to_handle n = some h ∧ (s.handle_to_server_id h).isSome) ∧
  (∀ n h, s.node_to_handle n = some h → s.handle_to_node h = some n) ∧
  (∀ h, (s.handle_to_server_id h).isSome → (s.handle_to_node h).isSome)

end Opcua

namespace Opcua

/-- `SubscriptionAction` (src/opcua/subscription_manager.rs). -/
inductive SubscriptionAction where
  | none
  | createSubscription
  | addItems (nodes : List Str)
deriving DecidableEq

/-- `SubscriptionManager` (src/opcua/subscription_manager.rs). -/
structure SubscriptionManager where
  monitored_items : Str → Option MonitoredData
  subscription_state : SubscriptionState
  pending_monitored_items : List Str
  creating_subscription : Bool

/-- `SubscriptionManager::new` (`Default`). -/
def SubscriptionManager.new : SubscriptionManager :=
  { monitored_items := fun _ => none,
    subscription_state := SubscriptionState.init,
    pending_monitored_items := [],
    creating_subscription := false }

/-- `SubscriptionManager::clear`. -/
def SubscriptionManager.clear (_ : SubscriptionManager) : SubscriptionManager :=
  SubscriptionManager.new

/-- `SubscriptionManager::request_add_to_watchlist`
(src/opcua/subscription_manager.rs): an already-tracked node is a no-op;
otherwise its `MonitoredData` record is created immediately, and then
either the items are added to the active subscription, or the node is
queued and a subscription creation is triggered unless one is already in
flight. -/
def SubscriptionManager.request_add_to_watchlist (m : SubscriptionManager)
    (node : BrowsedNode) : SubscriptionAction × SubscriptionManager :=
  if (m.monitored_items node.node_id).isSome then
    (.none, m)
  else
    let data := MonitoredData.new node.node_id node.display_name
    let m := { m with monitored_items := mapInsert m.monitored_items node.node_id data }
    if m.subscription_state.subscription_id.isSome then
      (.addItems [node.node_id], m)
    else
      let m := { m with pending_monitored_items := m.pending_monitored_items ++ [node.node_id] }
      if !m.creating_subscription then
        (.createSubscription, { m with creating_subscription := true })
      else
        (.none, m)

/-- A sequence of `request_add_to_watchlist` calls, returning the list
of actions produced in order together with the final manager state. -/
def SubscriptionManager.addAll (m : SubscriptionManager) :
    List BrowsedNode → List SubscriptionAction × SubscriptionManager
  | [] => ([], m)
  | node :: rest =>
    let (act, m') := m.request_add_to_watchlist node
    let (acts, m'') := m'.addAll rest
    (act :: acts, m'')

/-- `SubscriptionManager::handle_data_change`
(src/opcua/subscription_manager.rs): look the handle up; when tracked,
update the corresponding `MonitoredData` (a stale handle is dropped). -/
def SubscriptionManager.handle_data_change (m : SubscriptionManager)
    (handle : Nat) (value : DataValue) (now : ℚ) : SubscriptionManager :=
  match m.subscription_state.get_node_id handle with
  | some node_id =>
    match m.monitored_items node_id with
    | some item =>
      { m with monitored_items :=
          mapInsert m.monitored_items node_id (item.update value now) }
    | none => m
  | none => m

end Opcua

namespace Opcua

/-- The remote session underlying an `OpcUaClient`, abstracted to the
one observable that liveness is about: whether the remote connection is
actually live. -/
structure Session where
  live : Bool

/-- `OpcUaClient` (src/opcua/client.rs), restricted to its session. -/
structure OpcUaClient where
  session : Session

/-- `OpcUaClient::is_connected` (src/opcua/client.rs, lines 167-174):
the body is literally `true` — the session object exists, so the
function reports connected regardless of the actual connection state. -/
def OpcUaClient.is_connected (_ : OpcUaClient) : Bool :=
  true

end Opcua

section Claims

open Diagnostics Opcua

/-- C1: the claim requires `is_connected(session)` to return `true` if
and only if the session is actually live.  The code
(src/opcua/client.rs, lines 167–174) returns the literal `true`: it
reports connected even for a client whose remote session is dead, which
is exactly the defect the specification's §9 open question flags.  This
theorem evaluates the embedded code at the failing input (a client whose
session is not live). -/
theorem is_connected_true_on_dead_session :
    (OpcUaClient.is_connected { session := { live := false } } = true) ∧
    ({ session := { live := false } } : OpcUaClient).session.live = false :=
  ⟨rfl, rfl⟩

/-- C8: for every input accepted as valid, `to_url(port)` rebuilds a
well-formed `opc.tcp://host:port` string (scheme, the non-empty parsed
host, `:`, the decimal port); and for every input whose scheme is not
`opc.tcp` (it contains `://` but does not start with `opc.tcp://`),
parsing produces a non-empty error list. -/
theorem parse_to_url_roundtrip_and_bad_scheme (s : Str) :
    ((parse_user_input s).is_valid = true →
      (parse_user_input s).host ≠ [] ∧
      ∀ p : Nat, (parse_user_input s).to_url p =
        "opc.tcp://".toList ++ (parse_user_input s).host ++ ':' :: Nat.toDigits 10 p) ∧
    (hasSubSeq ("://".toList) (trim s) = true →
     startsWithL ("opc.tcp://".toList) (trim s) = false →
     (parse_user_input s).errors ≠ []) := by
  constructor
  · intro hvalid
    refine ⟨?_, fun p => rfl⟩
    have h2 : (!(parse_user_input s).host.isEmpty) = true := by
      have := hvalid
      unfold ParsedInput.is_valid at this
      exact (Bool.and_eq_true _ _ |>.mp this).2
    simpa using h2
  · intro hsub hstart
    have htrimne : (trim s).isEmpty = false := by
      cases htr : trim s with
      | nil => rw [htr] at hsub; simp [hasSubSeq] at hsub
      | cons a l => simp
    have hdrop : dropStart ("opc.tcp://".toList) (trim s) = none := by
      unfold dropStart
      rw [hstart]
      simp
    simp only [parse_user_input, htrimne, Bool.false_eq_true, if_false, hdrop, hsub, if_true]
    simp

/-- C8 witness: the roundtrip half at a parsed valid address, the
error half at an `http://` address. -/
theorem parse_to_url_roundtrip_and_bad_scheme_witness :
    ((parse_user_input ("192.168.1.100:4840".toList)).host ≠ [] ∧
      ∀ p : Nat, (parse_user_input ("192.168.1.100:4840".toList)).to_url p =
        "opc.tcp://".toList ++ (parse_user_input ("192.168.1.100:4840".toList)).host ++
          ':' :: Nat.toDigits 10 p) ∧
    (parse_user_input ("http://myhost".toList)).errors ≠ [] :=
  ⟨(parse_to_url_roundtrip_and_bad_scheme _).1 (by decide),
   (parse_to_url_roundtrip_and_bad_scheme _).2 (by decide) (by decide)⟩

end Claims

namespace StrOps

theorem takeWhile_eq_self_of_all {p : Char → Bool} {l : Str}
    (h : ∀ x ∈ l, p x = true) : l.takeWhile p = l := by
  induction l with
  | nil => rfl
  | cons a l ih =>
    rw [List.takeWhile_cons, h a (by simp)]
    simp [ih (fun x hx => h x (by simp [hx]))]

theorem takeWhile_append_stop {p : Char → Bool} {l1 l2 : Str} {a : Char}
    (h1 : ∀ x ∈ l1, p x = true) (ha : p a = false) :
    (l1 ++ a :: l2).takeWhile p = l1 ∧ (l1 ++ a :: l2).dropWhile p = a :: l2 := by
  induction l1 with
  | nil => simp [List.takeWhile_cons, List.dropWhile_cons, ha]
  | cons x l1 ih =>
    have hx : p x = true := h1 x (by simp)
    have ih' := ih (fun y hy => h1 y (by simp [hy]))
    simp [List.takeWhile_cons, List.dropWhile_cons, hx, ih'.1, ih'.2]

theorem rsplitOnceRight_append (host suffix : Str) (hcol : ':' ∉ suffix) :
    rsplitOnceRight ':' (host ++ ':' :: suffix) = some (host, suffix) := by
  unfold rsplitOnceRight
  have hrev : (host ++ ':' :: suffix).reverse = suffix.reverse ++ ':' :: host.reverse := by
    simp
  rw [hrev]
  have hall : ∀ x ∈ suffix.reverse, (fun x => decide (x ≠ ':')) x = true := by
    intro x hx
    have : x ∈ suffix := List.mem_reverse.mp hx
    simp only [decide_eq_true_eq]
    intro hxe
    exact hcol (hxe ▸ this)
  have hstop : (fun x => decide (x ≠ ':')) ':' = false := by simp
  have hs := @takeWhile_append_stop (fun x => decide (x ≠ ':'))
    suffix.reverse host.reverse ':' hall hstop
  rw [List.span_eq_take_drop, hs.1, hs.2]
  simp

end StrOps

section Claims

open Diagnostics Opcua

/-- C10: an input of the form `host:suffix` — no scheme separator, no
brackets, no path slash, no whitespace to trim — whose part after the
last colon does not parse as a 16-bit port number is accepted as valid:
the whole string, colon and suffix included, becomes the host, the port
is `None`, and the error list is empty. -/
theorem parse_nonnumeric_port_suffix_into_host (host suffix : Str)
    (hns : hasSubSeq ("://".toList) (host ++ ':' :: suffix) = false)
    (htrim : trim (host ++ ':' :: suffix) = host ++ ':' :: suffix)
    (hnb : startsWithL ['['] (host ++ ':' :: suffix) = false)
    (hslash : '/' ∉ host ++ ':' :: suffix)
    (hcol : ':' ∉ suffix)
    (hport : parseU16 suffix = none) :
    parse_user_input (host ++ ':' :: suffix) =
      { host := host ++ ':' :: suffix, port := none, had_scheme := false, errors := [] } ∧
    (parse_user_input (host ++ ':' :: suffix)).is_valid = true := by
  have hne : (host ++ ':' :: suffix).isEmpty = false := by
    cases host <;> simp
  have hdrop : dropStart ("opc.tcp://".toList) (host ++ ':' :: suffix) = none := by
    unfold dropStart
    rw [not_startsWith_scheme_of_not_hasSubSeq _ hns]
    simp
  have htake : (host ++ ':' :: suffix).takeWhile (· ≠ '/') = host ++ ':' :: suffix :=
    takeWhile_eq_self_of_all (fun x hx => by
      have hx' : x ≠ '/' := fun h => hslash (h ▸ hx)
      simp [hx'])
  have hparse : parseHostPort (host ++ ':' :: suffix) = (host ++ ':' :: suffix, none, []) := by
    unfold parseHostPort
    rw [rsplitOnceRight_append host suffix hcol]
    simp [hport]
  have hmain : parse_user_input (host ++ ':' :: suffix) =
      { host := host ++ ':' :: suffix, port := none, had_scheme := false, errors := [] } := by
    simp only [parse_user_input, htrim, hne, Bool.false_eq_true, if_false, hdrop,
      hns, htake, hnb, hparse]
  exact ⟨hmain, by rw [hmain]; simp [ParsedInput.is_valid, hne]⟩

/-- C10 witness: the concrete input `myhost:abc`. -/
theorem parse_nonnumeric_port_suffix_into_host_witness :
    parse_user_input ("myhost:abc".toList) =
      { host := "myhost:abc".toList, port := none, had_scheme := false, errors := [] } ∧
    (parse_user_input ("myhost:abc".toList)).is_valid = true :=
  parse_nonnumeric_port_suffix_into_host ("myhost".toList) ("abc".toList)
    (by decide) (by decide) (by decide) (by decide) (by decide) (by decide)

end Claims

namespace Opcua

theorem trimHistory_eq_drop (l : List (ℚ × ℚ)) :
    trimHistory l = l.drop (l.length - MAX_HISTORY_POINTS) := by
  induction l with
  | nil => rfl
  | cons x xs ih =>
    unfold trimHistory
    by_cases hlen : MAX_HISTORY_POINTS < (x :: xs).length
    · rw [if_pos hlen, ih]
      have hlc : (x :: xs).length = xs.length + 1 := rfl
      have harith : (x :: xs).length - MAX_HISTORY_POINTS =
          (xs.length - MAX_HISTORY_POINTS) + 1 := by omega
      rw [harith, List.drop_succ_cons]
    · rw [if_neg hlen]
      have : (x :: xs).length - MAX_HISTORY_POINTS = 0 := by omega
      rw [this, List.drop_zero]

theorem trimHistory_length_le (l : List (ℚ × ℚ)) :
    (trimHistory l).length ≤ MAX_HISTORY_POINTS := by
  induction l with
  | nil => simp [trimHistory, MAX_HISTORY_POINTS]
  | cons x xs ih =>
    unfold trimHistory
    by_cases hlen : MAX_HISTORY_POINTS < (x :: xs).length
    · rw [if_pos hlen]; exact ih
    · rw [if_neg hlen]; omega

end Opcua

section Claims

open Diagnostics Opcua

/-- C9: `MonitoredData::update` appends `(timestamp, value)` to the
history exactly when the new value is numeric (booleans as 0/1),
evicting from the front once the length exceeds 600 so the post-update
length never exceeds 600, and leaves the history untouched for missing
or non-numeric values. -/
theorem update_history_ring (m : MonitoredData) (dv : DataValue) (now : ℚ) :
    (∀ v x, dv.value = some v → variant_to_f64 v = some x →
       (m.update dv now).history =
         (m.history ++ [(historyTimestamp dv.source_timestamp now, x)]).drop
           ((m.history.length + 1) - MAX_HISTORY_POINTS) ∧
       (m.update dv now).history.length ≤ MAX_HISTORY_POINTS) ∧
    (dv.value = none → (m.update dv now).history = m.history) ∧
    (∀ v, dv.value = some v → variant_to_f64 v = none →
       (m.update dv now).history = m.history) ∧
    (∀ b, variant_to_f64 (.Boolean b) = some (if b then 1 else 0)) := by
  refine ⟨?_, ?_, ?_, fun b => rfl⟩
  · intro v x hv hx
    constructor
    · simp only [MonitoredData.update, hv, hx, trimHistory_eq_drop]
      simp
    · simp only [MonitoredData.update, hv, hx]
      exact trimHistory_length_le _
  · intro hv
    simp only [MonitoredData.update, hv]
  · intro v hv hx
    simp only [MonitoredData.update, hv, hx]

/-- C9 witness: an `Int32 5` data change on an item with one prior
sample appends it; a `String` data change leaves history unchanged. -/
theorem update_history_ring_witness :
    (((MonitoredData.new ("n".toList) ("n".toList)).update
        { value := some (.Int32 5), status := none,
          source_timestamp := some 2000, server_timestamp := none } 0).history =
      ([] ++ [(historyTimestamp (some 2000) 0, (5 : ℚ))]).drop ((0 + 1) - MAX_HISTORY_POINTS) ∧
     ((MonitoredData.new ("n".toList) ("n".toList)).update
        { value := some (.Int32 5), status := none,
          source_timestamp := some 2000, server_timestamp := none } 0).history.length ≤
       MAX_HISTORY_POINTS) ∧
    ((MonitoredData.new ("n".toList) ("n".toList)).update
        { value := some (.String ("x".toList)), status := none,
          source_timestamp := none, server_timestamp := none } 0).history = [] :=
  ⟨(update_history_ring (MonitoredData.new ("n".toList) ("n".toList))
      { value := some (.Int32 5), status := none,
        source_timestamp := some 2000, server_timestamp := none } 0).1
      (.Int32 5) 5 rfl rfl,
   (update_history_ring (MonitoredData.new ("n".toList) ("n".toList))
      { value := some (.String ("x".toList)), status := none,
        source_timestamp := none, server_timestamp := none } 0).2.2.1
      (.String ("x".toList)) rfl rfl⟩

end Claims

namespace Opcua

/-- While a subscription creation is in flight (and none is active),
every `request_add_to_watchlist` call for a fresh node is enqueued and
answered with the no-op action. -/
theorem addAll_while_creating (nodes : List BrowsedNode) :
    ∀ m : SubscriptionManager,
      m.creating_subscription = true →
      m.subscription_state.subscription_id = none →
      (∀ nd ∈ nodes, m.monitored_items nd.node_id = none) →
      (nodes.map (·.node_id)).Nodup →
      (m.addAll nodes).1 = List.replicate nodes.length .none ∧
      (m.addAll nodes).2.pending_monitored_items =
        m.pending_monitored_items ++ nodes.map (·.node_id) := by
  induction nodes with
  | nil => intro m _ _ _ _; simp [SubscriptionManager.addAll]
  | cons node rest ih =>
    intro m hcreating hsub huntracked hnodup
    have hm : m.monitored_items node.node_id = none := huntracked node (by simp)
    have hstep : m.request_add_to_watchlist node =
        (.none, { m with
          monitored_items := mapInsert m.monitored_items node.node_id
            (MonitoredData.new node.node_id node.display_name),
          pending_monitored_items := m.pending_monitored_items ++ [node.node_id] }) := by
      simp [SubscriptionManager.request_add_to_watchlist, hm, hsub, hcreating]
    have hrest := ih { m with
          monitored_items := mapInsert m.monitored_items node.node_id
            (MonitoredData.new node.node_id node.display_name),
          pending_monitored_items := m.pending_monitored_items ++ [node.node_id] }
      hcreating hsub
      (by
        intro nd hnd
        have hne : nd.node_id ≠ node.node_id := by
          have hni := (List.nodup_cons.mp hnodup).1
          intro he
          have hmem : nd.node_id ∈ rest.map (·.node_id) := List.mem_map_of_mem (·.node_id) hnd
          rw [he] at hmem
          exact hni hmem
        simp [mapInsert, hne, huntracked nd (by simp [hnd])])
      (List.nodup_cons.mp hnodup).2
    simp only [SubscriptionManager.addAll, hstep]
    refine ⟨?_, ?_⟩
    · simp [hrest.1, List.replicate_succ]
    · simp [hrest.2]

end Opcua

section Claims

open Diagnostics Opcua

/-- C6: from a fresh manager (no subscription, none being created), a
sequence of `request_add_to_watchlist` calls for distinct untracked
nodes returns the create-subscription action exactly once — on the first
call — and the no-op action on every later call while creation is in
flight, every node ending up queued; and a call for an
already-tracked node is a no-op that leaves the manager unchanged. -/
theorem request_add_creates_subscription_once (node : BrowsedNode) (rest : List BrowsedNode)
    (hdist : (((node :: rest).map (·.node_id)) : List Str).Nodup) :
    ((SubscriptionManager.new.addAll (node :: rest)).1 =
      .createSubscription :: List.replicate rest.length .none) ∧
    ((SubscriptionManager.new.addAll (node :: rest)).2.pending_monitored_items =
      (node :: rest).map (·.node_id)) ∧
    (∀ (m : SubscriptionManager) (nd : BrowsedNode),
      (m.monitored_items nd.node_id).isSome = true →
      m.request_add_to_watchlist nd = (.none, m)) := by
  have hstep : SubscriptionManager.new.request_add_to_watchlist node =
      (.createSubscription, { SubscriptionManager.new with
        monitored_items := mapInsert SubscriptionManager.new.monitored_items node.node_id
          (MonitoredData.new node.node_id node.display_name),
        pending_monitored_items := [node.node_id],
        creating_subscription := true }) := by
    simp [SubscriptionManager.request_add_to_watchlist, SubscriptionManager.new,
      SubscriptionState.init]
  have hrest := addAll_while_creating rest
    { SubscriptionManager.new with
      monitored_items := mapInsert SubscriptionManager.new.monitored_items node.node_id
        (MonitoredData.new node.node_id node.display_name),
      pending_monitored_items := [node.node_id],
      creating_subscription := true }
    rfl rfl
    (by
      intro nd hnd
      have hne : nd.node_id ≠ node.node_id := by
        have hni := (List.nodup_cons.mp hdist).1
        intro he
        have hmem : nd.node_id ∈ rest.map (·.node_id) := List.mem_map_of_mem (·.node_id) hnd
        rw [he] at hmem
        exact hni hmem
      simp [mapInsert, hne, SubscriptionManager.new])
    (List.nodup_cons.mp hdist).2
  refine ⟨?_, ?_, ?_⟩
  · simp only [SubscriptionManager.addAll, hstep]
    simp [hrest.1]
  · simp only [SubscriptionManager.addAll, hstep]
    simp [hrest.2]
  · intro m nd h
    simp [SubscriptionManager.request_add_to_watchlist, h]

end Claims

section Claims

open Diagnostics Opcua

/-- Three distinct concrete nodes requested in quick succession. -/
def watchNodeA : Opcua.BrowsedNode :=
  { node_id := "ns=2;s=A".toList, browse_name := "A".toList, display_name := "A".toList,
    node_class := .Variable, type_definition := none, has_children := false }

/-- Second concrete watch node. -/
def watchNodeB : Opcua.BrowsedNode :=
  { watchNodeA with
    node_id := "ns=2;s=B".toList, browse_name := "B".toList,
    display_name := "B".toList }

/-- Third concrete watch node. -/
def watchNodeC : Opcua.BrowsedNode :=
  { watchNodeA with
    node_id := "ns=2;s=C".toList, browse_name := "C".toList,
    display_name := "C".toList }

/-- C6 witness: three distinct nodes requested in quick succession yield
the create-subscription action once, then no-ops, all three queued; and
re-requesting the first node afterwards is a no-op on the resulting
manager. -/
theorem request_add_creates_subscription_once_witness :
    ((SubscriptionManager.new.addAll [watchNodeA, watchNodeB, watchNodeC]).1 =
      .createSubscription :: List.replicate 2 .none) ∧
    ((SubscriptionManager.new.addAll [watchNodeA, watchNodeB, watchNodeC]).2.pending_monitored_items
      = [watchNodeA, watchNodeB, watchNodeC].map (·.node_id)) ∧
    ((SubscriptionManager.new.addAll [watchNodeA, watchNodeB, watchNodeC]).2.request_add_to_watchlist
        watchNodeA =
      (.none, (SubscriptionManager.new.addAll [watchNodeA, watchNodeB, watchNodeC]).2)) := by
  have h := request_add_creates_subscription_once watchNodeA [watchNodeB, watchNodeC]
    (by decide)
  exact ⟨h.1, h.2.1, h.2.2
    ((SubscriptionManager.new.addAll [watchNodeA, watchNodeB, watchNodeC]).2) watchNodeA
    (by decide)⟩

end Claims

namespace Opcua

theorem mirror_init : Mirror SubscriptionState.init := by
  refine ⟨fun a b hx => ?_, fun a b hx => ?_, fun a hx => ?_⟩ <;>
    simp [SubscriptionState.init] at hx

theorem register_preserves_mirror {s : SubscriptionState} {node : Str} {item handle : Nat}
    (hmir : Mirror s) (hn : s.node_to_handle node = none)
    (hh : s.handle_to_node handle = none) :
    Mirror (s.register_item node item handle) := by
  obtain ⟨m1, m2, m3⟩ := hmir
  refine ⟨?_, ?_, ?_⟩
  · intro h' n' hlook
    simp only [SubscriptionState.register_item, mapInsert] at hlook ⊢
    by_cases hch : h' = handle
    · subst hch
      rw [if_pos rfl] at hlook
      injection hlook with hlook
      subst hlook
      simp
    · rw [if_neg hch] at hlook
      have hold := m1 h' n' hlook
      by_cases hcn : n' = node
      · subst hcn
        rw [hn] at hold
        exact absurd hold.1 (by simp)
      · rw [if_neg hcn, if_neg hch]
        exact hold
  · intro n' h' hlook
    simp only [SubscriptionState.register_item, mapInsert] at hlook ⊢
    by_cases hcn : n' = node
    · subst hcn
      rw [if_pos rfl] at hlook
      injection hlook with hlook
      subst hlook
      simp
    · rw [if_neg hcn] at hlook
      have hold := m2 n' h' hlook
      by_cases hch : h' = handle
      · subst hch
        rw [hh] at hold
        exact absurd hold (by simp)
      · rw [if_neg hch]
        exact hold
  · intro h' hsome
    simp only [SubscriptionState.register_item, mapInsert] at hsome ⊢
    by_cases hch : h' = handle
    · subst hch; simp
    · rw [if_neg hch] at hsome
      rw [if_neg hch]
      exact m3 h' hsome

theorem unregister_preserves_mirror {s : SubscriptionState} (hmir : Mirror s) (n : Str) :
    Mirror (s.unregister_by_node n).2 := by
  obtain ⟨m1, m2, m3⟩ := hmir
  cases hlook : s.node_to_handle n with
  | none =>
    simp only [SubscriptionState.unregister_by_node, hlook]
    exact ⟨m1, m2, m3⟩
  | some handle =>
    simp only [SubscriptionState.unregister_by_node, hlook]
    refine ⟨?_, ?_, ?_⟩
    · intro h' n' hl
      simp only [mapRemove] at hl ⊢
      by_cases hch : h' = handle
      · rw [if_pos hch] at hl
        exact absurd hl (by simp)
      · rw [if_neg hch] at hl
        have hold := m1 h' n' hl
        by_cases hcn : n' = n
        · subst hcn
          rw [hlook] at hold
          injection hold.1 with heq
          exact absurd heq.symm hch
        · rw [if_neg hcn, if_neg hch]
          exact hold
    · intro n' h' hl
      simp only [mapRemove] at hl ⊢
      by_cases hcn : n' = n
      · rw [if_pos hcn] at hl
        exact absurd hl (by simp)
      · rw [if_neg hcn] at hl
        have hold := m2 n' h' hl
        by_cases hch : h' = handle
        · have hnn : s.handle_to_node h' = some n := by
            rw [hch]
            exact m2 n handle hlook
          rw [hold] at hnn
          injection hnn with hnn
          exact absurd hnn hcn
        · rw [if_neg hch]
          exact hold
    · intro h' hsome
      simp only [mapRemove] at hsome ⊢
      by_cases hch : h' = handle
      · rw [if_pos hch] at hsome
        exact absurd hsome (by simp)
      · rw [if_neg hch] at hsome
        rw [if_neg hch]
        exact m3 h' hsome

theorem runOps_preserves_mirror :
    ∀ (ops : List SubOp) (s : SubscriptionState),
      Mirror s → opsOk s ops = true → Mirror (runOps s ops) := by
  intro ops
  induction ops with
  | nil => intro s hmir _; exact hmir
  | cons op rest ih =>
    intro s hmir hok
    unfold opsOk at hok
    rw [Bool.and_eq_true] at hok
    refine ih (applyOp s op) ?_ hok.2
    cases op with
    | register node item handle =>
      have hpre := hok.1
      simp only [Bool.and_eq_true, Option.isNone_iff_eq_none] at hpre
      exact register_preserves_mirror hmir hpre.1.1 hpre.1.2
    | unregister node => exact unregister_preserves_mirror hmir node
    | clear => exact mirror_init

/-- Unregistering a node present in the maps removes its entries from
all three maps. -/
theorem unregister_removes_all {s : SubscriptionState} {n : Str} {h : Nat}
    (hlook : s.node_to_handle n = some h) :
    (s.unregister_by_node n).2.node_to_handle n = none ∧
    (s.unregister_by_node n).2.handle_to_node h = none ∧
    (s.unregister_by_node n).2.handle_to_server_id h = none := by
  simp only [SubscriptionState.unregister_by_node, hlook, mapRemove]
  simp

/-- Under the mirror invariant, unregistering one node leaves every
other node's handle-to-node entries exactly as they were. -/
theorem unregister_preserves_others {s : SubscriptionState} (hmir : Mirror s)
    {n n' : Str} (h : Nat) (hne : n' ≠ n) :
    ((s.unregister_by_node n).2.handle_to_node h = some n' ↔
      s.handle_to_node h = some n') := by
  obtain ⟨m1, m2, _⟩ := hmir
  cases hlook : s.node_to_handle n with
  | none => simp [SubscriptionState.unregister_by_node, hlook]
  | some handle =>
    simp only [SubscriptionState.unregister_by_node, hlook, mapRemove]
    constructor
    · intro hl
      by_cases hch : h = handle
      · rw [if_pos hch] at hl
        exact absurd hl (by simp)
      · rw [if_neg hch] at hl
        exact hl
    · intro hl
      by_cases hch : h = handle
      · subst hch
        have : s.handle_to_node h = some n := m2 n h hlook
        rw [hl] at this
        injection this with this
        exact absurd this hne
      · rw [if_neg hch]
        exact hl

end Opcua

section Claims

open Diagnostics Opcua

/-- C7 (amended): under every sequence of `register_item`,
`unregister_by_node` and `clear` operations from the initial state in
which every `register_item` uses a handle and a node not currently
registered (in particular, pairwise distinct handles), the three maps
stay mutually consistent — every entry has its mirror entries in the
other two — and on the resulting state, unregistering a registered node
removes its entries from all three maps while leaving every other
node's handle-to-node entry unchanged. -/
theorem subscription_state_maps_consistent (ops : List SubOp)
    (hok : opsOk SubscriptionState.init ops = true) :
    Mirror (runOps SubscriptionState.init ops) ∧
    (∀ n h, (runOps SubscriptionState.init ops).node_to_handle n = some h →
      ((runOps SubscriptionState.init ops).unregister_by_node n).2.node_to_handle n = none ∧
      ((runOps SubscriptionState.init ops).unregister_by_node n).2.handle_to_node h = none ∧
      ((runOps SubscriptionState.init ops).unregister_by_node n).2.handle_to_server_id h = none) ∧
    (∀ (n n' : Str) (h : Nat), n' ≠ n →
      (((runOps SubscriptionState.init ops).unregister_by_node n).2.handle_to_node h = some n' ↔
        (runOps SubscriptionState.init ops).handle_to_node h = some n')) := by
  have hmir := runOps_preserves_mirror ops SubscriptionState.init mirror_init hok
  exact ⟨hmir,
    fun n h hlook => unregister_removes_all hlook,
    fun n n' h hne => unregister_preserves_others hmir h hne⟩

/-- A register/unregister script with pairwise distinct handles. -/
def subStateScript : List SubOp :=
  [.register ("ns=2;s=A".toList) 100 1, .register ("ns=2;s=B".toList) 200 2,
   .unregister ("ns=2;s=A".toList)]

/-- C7 witness: running a concrete script (register A, register B,
unregister A) from the initial state keeps the maps mirrored; concretely,
B's registration survives A's removal in all three maps. -/
theorem subscription_state_maps_consistent_witness :
    (((runOps SubscriptionState.init subStateScript).unregister_by_node
        ("ns=2;s=B".toList)).2.node_to_handle ("ns=2;s=B".toList) = none ∧
     ((runOps SubscriptionState.init subStateScript).unregister_by_node
        ("ns=2;s=B".toList)).2.handle_to_node 2 = none ∧
     ((runOps SubscriptionState.init subStateScript).unregister_by_node
        ("ns=2;s=B".toList)).2.handle_to_server_id 2 = none) ∧
    (((runOps SubscriptionState.init subStateScript).unregister_by_node
        ("ns=2;s=A".toList)).2.handle_to_node 2 = some ("ns=2;s=B".toList) ↔
      (runOps SubscriptionState.init subStateScript).handle_to_node 2 =
        some ("ns=2;s=B".toList)) := by
  have h := subscription_state_maps_consistent subStateScript (by decide)
  exact ⟨h.2.1 ("ns=2;s=B".toList) 2 (by decide),
    h.2.2 ("ns=2;s=A".toList) ("ns=2;s=B".toList) 2 (by decide)⟩

/-- The sequence refuting C7 as stated: the same node registered twice
under two distinct handles. -/
def subStateBadScript : List SubOp :=
  [.register ("ns=2;s=A".toList) 100 1, .register ("ns=2;s=A".toList) 200 2]

/-- C7 counterexample: with pairwise distinct handles alone (1 and 2),
registering the same node twice leaves an entry of `handle_to_node`
(handle 1 ↦ node A) whose mirror entry is missing from
`node_to_handle` (node A ↦ handle 2, not 1), so the stated invariant
fails. -/
theorem subscription_state_maps_inconsistent_same_node :
    (registerHandles subStateBadScript).Nodup ∧
    (runOps SubscriptionState.init subStateBadScript).handle_to_node 1 =
      some ("ns=2;s=A".toList) ∧
    ¬((runOps SubscriptionState.init subStateBadScript).node_to_handle
        ("ns=2;s=A".toList) = some 1) := by
  refine ⟨by decide, by decide, by decide⟩

end Claims

namespace Opcua

theorem crawl_children_length_le {step : Str → CrawlState → CrawlState}
    {max_nodes fuel : Nat}
    (hstep : ∀ n st, (step n st).results.length ≤ max st.results.length max_nodes + fuel) :
    ∀ (children : List BrowsedNode) (st : CrawlState),
      (crawl_children step max_nodes children st).results.length ≤
        max st.results.length max_nodes + (fuel + 1) := by
  intro children
  induction children with
  | nil =>
    intro st
    unfold crawl_children
    have : st.results.length ≤ max st.results.length max_nodes := le_max_left _ _
    omega
  | cons child rest ih =>
    intro st
    by_cases hc : child.has_children
    · simp only [crawl_children, hc, if_true]
      set st2 := step child.node_id { st with results := st.results ++ [child] } with hst2
      have hlen2 : st2.results.length ≤ max st.results.length max_nodes + (fuel + 1) := by
        have hs := hstep child.node_id { st with results := st.results ++ [child] }
        have hlen1 : ({ st with results := st.results ++ [child] } : CrawlState).results.length
            = st.results.length + 1 := by simp
        rw [hlen1] at hs
        rw [← hst2] at hs
        have hmx : max (st.results.length + 1) max_nodes ≤
            max st.results.length max_nodes + 1 := by omega
        omega
      by_cases hbreak : max_nodes ≤ st2.results.length
      · rw [if_pos hbreak]
        exact hlen2
      · rw [if_neg hbreak]
        have h3 := ih st2
        have hmx2 : max st2.results.length max_nodes = max_nodes := by omega
        have hmxg : max_nodes ≤ max st.results.length max_nodes := le_max_right _ _
        omega
    · simp only [crawl_children, hc, Bool.false_eq_true, if_false]
      set st2 : CrawlState := { st with results := st.results ++ [child] } with hst2
      have hlen2 : st2.results.length ≤ max st.results.length max_nodes + (fuel + 1) := by
        have : st2.results.length = st.results.length + 1 := by simp [hst2]
        have : st.results.length ≤ max st.results.length max_nodes := le_max_left _ _
        omega
      by_cases hbreak : max_nodes ≤ st2.results.length
      · rw [if_pos hbreak]
        exact hlen2
      · rw [if_neg hbreak]
        have h3 := ih st2
        have hmx2 : max st2.results.length max_nodes = max_nodes := by omega
        have hmxg : max_nodes ≤ max st.results.length max_nodes := le_max_right _ _
        omega

theorem crawl_recursive_length_le (browse : Str → Except Str (List BrowsedNode))
    (max_nodes : Nat) :
    ∀ (fuel : Nat) (node : Str) (st : CrawlState),
      (crawl_recursive browse max_nodes fuel node st).results.length ≤
        max st.results.length max_nodes + fuel := by
  intro fuel
  induction fuel with
  | zero =>
    intro node st
    unfold crawl_recursive
    have : st.results.length ≤ max st.results.length max_nodes := le_max_left _ _
    omega
  | succ fuel ih =>
    intro node st
    unfold crawl_recursive
    by_cases hv : node ∈ st.visited
    · rw [if_pos hv]
      have : st.results.length ≤ max st.results.length max_nodes := le_max_left _ _
      omega
    · rw [if_neg hv]
      cases hb : browse node with
      | error e =>
        simp only
        have : st.results.length ≤ max st.results.length max_nodes := le_max_left _ _
        omega
      | ok children =>
        simp only
        have := @crawl_children_length_le (crawl_recursive browse max_nodes fuel)
          max_nodes fuel (fun n s => ih n s) children
          { st with visited := node :: st.visited }
        simpa using this

end Opcua

section Claims

open Diagnostics Opcua

/-- C2 counterexample: with `max_depth = 3` and `max_nodes = 1` on the
chain graph `S → a → b → c`, the crawl returns 3 nodes — the
`results.len() >= max_nodes` check only runs after the recursive
descent into each child has returned, so the overshoot is one node per
recursion level, not at most one sibling (`3 > max_nodes + 1 = 2`). -/
theorem crawl_exceeds_max_nodes_plus_one :
    (crawl chainBrowse { max_depth := 3, max_nodes := 1, start_node := "S".toList }).length = 3 ∧
    ¬((crawl chainBrowse
        { max_depth := 3, max_nodes := 1, start_node := "S".toList }).length ≤ 1 + 1) := by
  refine ⟨by decide, by decide⟩

/-- C2 (amended): the crawl's result list is soft-bounded by
`max_nodes` with an overshoot of at most one node per active recursion
level: its length never exceeds `max_nodes + max_depth`.  (The per-level
break does fire right after the length check, but the check runs only
after the recursive descent, so each enclosing level may already have
contributed one extra node.) -/
theorem crawl_length_soft_bound (browse : Str → Except Str (List BrowsedNode))
    (config : CrawlConfig) :
    (crawl browse config).length ≤ config.max_nodes + config.max_depth := by
  have := crawl_recursive_length_le browse config.max_nodes config.max_depth
    config.start_node ⟨[], []⟩
  simpa [crawl, crawl_state] using this

end Claims

namespace Opcua

/-- The children the crawler sees for a node: the browse result, a
browse error acting as an empty child list (logged skip). -/
def childrenOf (browse : Str → Except Str (List BrowsedNode)) (node : Str) :
    List BrowsedNode :=
  match browse node with
  | .ok children => children
  | .error _ => []

/-- `ReachWithin browse start node k`: the node identifier `node` is
reachable from `start` along browse references by a path of length at
most `k` — i.e. its depth from `start` in the node graph is at most
`k`. -/
inductive ReachWithin (browse : Str → Except Str (List BrowsedNode)) (start : Str) :
    Str → Nat → Prop where
  | refl (k : Nat) : ReachWithin browse start start k
  | step {p : Str} {c : BrowsedNode} {k : Nat} :
      ReachWithin browse start p k → c ∈ childrenOf browse p →
      ReachWithin browse start c.node_id (k + 1)

theorem ReachWithin.succ {browse start node k}
    (h : ReachWithin browse start node k) : ReachWithin browse start node (k + 1) := by
  induction h with
  | refl k => exact .refl (k + 1)
  | step hp hc ih => exact .step ih hc

theorem ReachWithin.mono {browse start node k k'}
    (h : ReachWithin browse start node k) (hk : k ≤ k') :
    ReachWithin browse start node k' := by
  induction k' with
  | zero =>
    have : k = 0 := Nat.le_zero.mp hk
    exact this ▸ h
  | succ k' ih =>
    by_cases hk2 : k ≤ k'
    · exact (ih hk2).succ
    · have : k = k' + 1 := by omega
      exact this ▸ h

/-- `crawl_children` preserves any property of the accumulated results
that holds of every child in the list and is preserved by the step
function on those children. -/
theorem crawl_children_results_pres {step : Str → CrawlState → CrawlState}
    {max_nodes : Nat} {P : BrowsedNode → Prop} :
    ∀ (children : List BrowsedNode) (st : CrawlState),
      (∀ c ∈ children, ∀ s : CrawlState,
        (∀ nd ∈ s.results, P nd) → ∀ nd ∈ (step c.node_id s).results, P nd) →
      (∀ nd ∈ st.results, P nd) → (∀ c ∈ children, P c) →
      ∀ nd ∈ (crawl_children step max_nodes children st).results, P nd := by
  intro children
  induction children with
  | nil => intro st _ hst _; simpa [crawl_children] using hst
  | cons child rest ih =>
    intro st hstep hst hch
    have hst1 : ∀ nd ∈ (st.results ++ [child]), P nd := by
      intro nd hnd
      rcases List.mem_append.mp hnd with h | h
      · exact hst nd h
      · rw [List.mem_singleton.mp h]
        exact hch child (by simp)
    by_cases hc : child.has_children
    · simp only [crawl_children, hc, if_true]
      set st2 := step child.node_id { st with results := st.results ++ [child] } with hst2
      have hst2p : ∀ nd ∈ st2.results, P nd := by
        rw [hst2]
        exact hstep child (by simp) _ hst1
      by_cases hbreak : max_nodes ≤ st2.results.length
      · rw [if_pos hbreak]
        exact hst2p
      · rw [if_neg hbreak]
        exact ih st2 (fun c hc2 => hstep c (by simp [hc2])) hst2p
          (fun c hc2 => hch c (by simp [hc2]))
    · simp only [crawl_children, hc, Bool.false_eq_true, if_false]
      set st2 : CrawlState := { st with results := st.results ++ [child] } with hst2
      have hst2p : ∀ nd ∈ st2.results, P nd := hst1
      by_cases hbreak : max_nodes ≤ st2.results.length
      · rw [if_pos hbreak]
        exact hst2p
      · rw [if_neg hbreak]
        exact ih st2 (fun c hc2 => hstep c (by simp [hc2])) hst2p
          (fun c hc2 => hch c (by simp [hc2]))

/-- Every node collected by `crawl_recursive` with depth budget `fuel`
from a node reachable within `d - fuel` is itself reachable from the
start within `d`. -/
theorem crawl_recursive_results_reach (browse : Str → Except Str (List BrowsedNode))
    (max_nodes : Nat) (start : Str) (d : Nat) :
    ∀ (fuel : Nat) (node : Str) (st : CrawlState), fuel ≤ d →
      ReachWithin browse start node (d - fuel) →
      (∀ nd ∈ st.results, ReachWithin browse start nd.node_id d) →
      ∀ nd ∈ (crawl_recursive browse max_nodes fuel node st).results,
        ReachWithin browse start nd.node_id d := by
  intro fuel
  induction fuel with
  | zero =>
    intro node st _ _ hst
    simpa [crawl_recursive] using hst
  | succ fuel ih =>
    intro node st hfd hreach hst
    unfold crawl_recursive
    by_cases hv : node ∈ st.visited
    · rw [if_pos hv]
      exact hst
    · rw [if_neg hv]
      cases hb : browse node with
      | error e =>
        simp only
        exact hst
      | ok children =>
        simp only
        have hch : ∀ c ∈ children, ReachWithin browse start c.node_id (d - fuel) := by
          intro c hc
          have hmem : c ∈ childrenOf browse node := by
            simp [childrenOf, hb, hc]
          have hstep := ReachWithin.step hreach hmem
          have : d - (fuel + 1) + 1 = d - fuel := by omega
          rw [this] at hstep
          exact hstep
        refine crawl_children_results_pres children { st with visited := node :: st.visited }
          ?_ hst ?_
        · intro c hc s hs
          exact ih c.node_id s (by omega)
            ((hch c hc).mono (by omega)) hs
        · intro c hc
          exact (hch c hc).mono (by omega)

/-- `crawl_children` touches the visited set only through its step
function. -/
theorem crawl_children_visited_nodup {step : Str → CrawlState → CrawlState}
    {max_nodes : Nat}
    (hstep : ∀ n s, s.visited.Nodup → (step n s).visited.Nodup) :
    ∀ (children : List BrowsedNode) (st : CrawlState),
      st.visited.Nodup → (crawl_children step max_nodes children st).visited.Nodup := by
  intro children
  induction children with
  | nil => intro st h; simpa [crawl_children] using h
  | cons child rest ih =>
    intro st hst
    by_cases hc : child.has_children
    · simp only [crawl_children, hc, if_true]
      set st2 := step child.node_id { st with results := st.results ++ [child] } with hst2
      have hst2n : st2.visited.Nodup := by
        rw [hst2]
        exact hstep _ _ hst
      by_cases hbreak : max_nodes ≤ st2.results.length
      · rw [if_pos hbreak]; exact hst2n
      · rw [if_neg hbreak]; exact ih st2 hst2n
    · simp only [crawl_children, hc, Bool.false_eq_true, if_false]
      set st2 : CrawlState := { st with results := st.results ++ [child] } with hst2
      by_cases hbreak : max_nodes ≤ st2.results.length
      · rw [if_pos hbreak]; exact hst
      · rw [if_neg hbreak]; exact ih st2 hst

/-- The cycle guard: the crawler's visited set never records a node
identifier twice. -/
theorem crawl_recursive_visited_nodup (browse : Str → Except Str (List BrowsedNode))
    (max_nodes : Nat) :
    ∀ (fuel : Nat) (node : Str) (st : CrawlState),
      st.visited.Nodup → (crawl_recursive browse max_nodes fuel node st).visited.Nodup := by
  intro fuel
  induction fuel with
  | zero => intro node st h; simpa [crawl_recursive] using h
  | succ fuel ih =>
    intro node st hst
    unfold crawl_recursive
    by_cases hv : node ∈ st.visited
    · rw [if_pos hv]; exact hst
    · rw [if_neg hv]
      have hst' : (node :: st.visited).Nodup := List.nodup_cons.mpr ⟨hv, hst⟩
      cases hb : browse node with
      | error e => simpa using hst'
      | ok children =>
        simp only
        exact crawl_children_visited_nodup (fun n s => ih n s) children
          { st with visited := node :: st.visited } hst'

end Opcua

section Claims

open Diagnostics Opcua

/-- C3: a crawl with `max_depth = d` collects only nodes whose depth
from `start_node` in the browse graph is at most `d` (every collected
node is reachable within `d` steps), and the visited set of node
identifier strings never records a node twice — the cycle guard that,
together with the depth budget, makes the embedded crawl a total
function even on graphs with shared or cyclic references (see the
`cyclicBrowse` example above, on which the crawl terminates with both
nodes exactly once). -/
theorem crawl_depth_bounded_and_cycle_safe (browse : Str → Except Str (List BrowsedNode))
    (config : CrawlConfig) :
    (∀ nd ∈ crawl browse config,
      ReachWithin browse config.start_node nd.node_id config.max_depth) ∧
    (crawl_state browse config).visited.Nodup := by
  constructor
  · intro nd hnd
    refine crawl_recursive_results_reach browse config.max_nodes config.start_node
      config.max_depth config.max_depth config.start_node ⟨[], []⟩ le_rfl ?_ ?_ nd hnd
    · have : config.max_depth - config.max_depth = 0 := by omega
      rw [this]
      exact .refl 0
    · intro nd' hnd'
      simp at hnd'
  · exact crawl_recursive_visited_nodup browse config.max_nodes config.max_depth
      config.start_node ⟨[], []⟩ (by simp)

end Claims

namespace Diagnostics

theorem scan_ports_no_cancel (host : Str) (tcpOpen : Str → Bool)
    (cancel : Nat → Bool) (hc : ∀ n, cancel n = false) :
    ∀ (ports : List Nat) (k : Nat),
      scan_ports host ports tcpOpen cancel k =
        (ports.map fun p => ⟨p, tcpOpen (host ++ ':' :: Nat.toDigits 10 p)⟩,
         k + ports.length) := by
  intro ports
  induction ports with
  | nil => intro k; simp [scan_ports]
  | cons p rest ih =>
    intro k
    simp only [scan_ports, hc, Bool.false_eq_true, if_false, ih (k + 1), List.map_cons]
    refine Prod.ext rfl ?_
    simp
    omega

theorem filter_is_open_map (f : Nat → Bool) :
    ∀ ports : List Nat,
      ((ports.map fun p => (⟨p, f p⟩ : PortScanResult)).filter (·.is_open)) =
        (ports.filter f).map fun p => ⟨p, true⟩ := by
  intro ports
  induction ports with
  | nil => rfl
  | cons p rest ih =>
    cases hf : f p with
    | false => simp [List.filter_cons, hf, ih]
    | true => simp [List.filter_cons, hf, ih]

/-- Discovery yields nothing usable at this URL: an error, or an empty
endpoint list. -/
def discFails (discover : Str → Except Str (List EndpointInfo)) (url : Str) : Prop :=
  ∀ es, discover url = .ok es → es = []

theorem discover_loop_skips (parsed : ParsedInput)
    (discover : Str → Except Str (List EndpointInfo))
    (cancel : Nat → Bool) (hc : ∀ n, cancel n = false) :
    ∀ (before rest : List PortScanResult) (k : Nat),
      (∀ pr ∈ before, discFails discover (parsed.to_url pr.port)) →
      discover_loop parsed (before ++ rest) discover cancel k =
        discover_loop parsed rest discover cancel (k + before.length) := by
  intro before
  induction before with
  | nil => intro rest k _; simp
  | cons pr before ih =>
    intro rest k hfail
    have hpr := hfail pr (by simp)
    simp only [List.cons_append, discover_loop, hc, Bool.false_eq_true, if_false]
    have harith : k + (pr :: before).length = (k + 1) + before.length := by
      simp
      omega
    rw [harith]
    cases hd : discover (parsed.to_url pr.port) with
    | error e =>
      exact ih rest (k + 1) (fun q hq => hfail q (by simp [hq]))
    | ok es =>
      have hes : es = [] := hpr es hd
      subst hes
      exact ih rest (k + 1) (fun q hq => hfail q (by simp [hq]))

theorem discover_loop_found (parsed : ParsedInput)
    (discover : Str → Except Str (List EndpointInfo))
    (cancel : Nat → Bool) (hc : ∀ n, cancel n = false)
    (pr : PortScanResult) (rest : List PortScanResult) (k : Nat)
    (e : EndpointInfo) (es : List EndpointInfo)
    (hd : discover (parsed.to_url pr.port) = .ok (e :: es)) :
    discover_loop parsed (pr :: rest) discover cancel k = (some (e, es), k + 1) := by
  simp [discover_loop, hc, hd]

theorem discover_loop_all_fail (parsed : ParsedInput)
    (discover : Str → Except Str (List EndpointInfo))
    (cancel : Nat → Bool) (hc : ∀ n, cancel n = false)
    (l : List PortScanResult) (k : Nat)
    (hfail : ∀ pr ∈ l, discFails discover (parsed.to_url pr.port)) :
    discover_loop parsed l discover cancel k = (none, k + l.length) := by
  have := discover_loop_skips parsed discover cancel hc l [] k hfail
  simpa [discover_loop] using this

end Diagnostics

namespace Diagnostics

/-- Reduction of `run_diagnostic` past validation, DNS and the port
scan, under "never cancelled": the remaining behavior depends only on
which candidate ports are open and on the discovery loop. -/
theorem run_diagnostic_after_dns (input : Str)
    (resolve : Str → Except Str (List Str)) (tcpOpen : Str → Bool)
    (discover : Str → Except Str (List EndpointInfo))
    (cancel : Nat → Bool) (hc : ∀ n, cancel n = false)
    (hvalid : (parse_user_input input).is_valid = true)
    (ip : Str) (rest : List Str)
    (hdns : resolve ((parse_user_input input).host ++ ":4840".toList) = .ok (ip :: rest)) :
    run_diagnostic input resolve tcpOpen discover cancel =
      (if ((candidatePorts (parse_user_input input)).filter
            (fun p => tcpOpen (ip ++ ':' :: Nat.toDigits 10 p))).length = 0 then
        { steps := [⟨.ValidateInput, .Success⟩, ⟨.ResolveDns, .Success⟩, ⟨.ScanPorts, .Failed⟩],
          overall_success := false,
          open_ports := (candidatePorts (parse_user_input input)).map
            (fun p => ⟨p, tcpOpen (ip ++ ':' :: Nat.toDigits 10 p)⟩),
          recommended_url := none, endpoints := [] }
      else
        match discover_loop (parse_user_input input)
            (((candidatePorts (parse_user_input input)).filter
              (fun p => tcpOpen (ip ++ ':' :: Nat.toDigits 10 p))).map (fun p => ⟨p, true⟩))
            discover cancel (2 + (candidatePorts (parse_user_input input)).length + 1) with
        | (some (e, es), _) =>
          { steps := [⟨.ValidateInput, .Success⟩, ⟨.ResolveDns, .Success⟩,
              ⟨.ScanPorts, .Success⟩, ⟨.DiscoverEndpoints, .Success⟩],
            overall_success := true,
            open_ports := (candidatePorts (parse_user_input input)).map
              (fun p => ⟨p, tcpOpen (ip ++ ':' :: Nat.toDigits 10 p)⟩),
            recommended_url := some e.endpoint_url,
            endpoints := e :: es }
        | (none, _) =>
          { steps := [⟨.ValidateInput, .Success⟩, ⟨.ResolveDns, .Success⟩,
              ⟨.ScanPorts, .Success⟩, ⟨.DiscoverEndpoints, .Warning⟩],
            overall_success := false,
            open_ports := (candidatePorts (parse_user_input input)).map
              (fun p => ⟨p, tcpOpen (ip ++ ':' :: Nat.toDigits 10 p)⟩),
            recommended_url := none, endpoints := [] }) := by
  simp only [run_diagnostic, hvalid, Bool.not_true, Bool.false_eq_true, if_false, hc, hdns,
    scan_ports_no_cancel ip tcpOpen cancel hc, filter_is_open_map, List.length_map,
    Option.getD]
  simp

end Diagnostics

section Claims

open Diagnostics Opcua

/-- C4: with no cancellation, the pipeline fails fast — a validation
failure returns only the failed `ValidateInput` step; a DNS failure
(resolver error or empty address list) returns exactly the successful
validation step and the failed `ResolveDns` step; and when every
candidate port is closed it returns the two successful steps plus a
`Failed` `ScanPorts` step, with `overall_success = false` and no
`DiscoverEndpoints` step ever produced. -/
theorem run_diagnostic_fails_fast (input : Str)
    (resolve : Str → Except Str (List Str)) (tcpOpen : Str → Bool)
    (discover : Str → Except Str (List EndpointInfo))
    (cancel : Nat → Bool) (hc : ∀ n, cancel n = false) :
    ((parse_user_input input).is_valid = false →
      run_diagnostic input resolve tcpOpen discover cancel =
        { steps := [⟨.ValidateInput, .Failed⟩], overall_success := false,
          open_ports := [], recommended_url := none, endpoints := [] }) ∧
    (∀ e, (parse_user_input input).is_valid = true →
      resolve ((parse_user_input input).host ++ ":4840".toList) = .error e →
      run_diagnostic input resolve tcpOpen discover cancel =
        { steps := [⟨.ValidateInput, .Success⟩, ⟨.ResolveDns, .Failed⟩],
          overall_success := false, open_ports := [], recommended_url := none,
          endpoints := [] }) ∧
    ((parse_user_input input).is_valid = true →
      resolve ((parse_user_input input).host ++ ":4840".toList) = .ok [] →
      run_diagnostic input resolve tcpOpen discover cancel =
        { steps := [⟨.ValidateInput, .Success⟩, ⟨.ResolveDns, .Failed⟩],
          overall_success := false, open_ports := [], recommended_url := none,
          endpoints := [] }) ∧
    (∀ ip rest, (parse_user_input input).is_valid = true →
      resolve ((parse_user_input input).host ++ ":4840".toList) = .ok (ip :: rest) →
      (∀ p ∈ candidatePorts (parse_user_input input),
        tcpOpen (ip ++ ':' :: Nat.toDigits 10 p) = false) →
      run_diagnostic input resolve tcpOpen discover cancel =
        { steps := [⟨.ValidateInput, .Success⟩, ⟨.ResolveDns, .Success⟩,
            ⟨.ScanPorts, .Failed⟩],
          overall_success := false,
          open_ports := (candidatePorts (parse_user_input input)).map fun p => ⟨p, false⟩,
          recommended_url := none, endpoints := [] } ∧
      ∀ st ∈ (run_diagnostic input resolve tcpOpen discover cancel).steps,
        st.id ≠ .DiscoverEndpoints) := by
  refine ⟨?_, ?_, ?_, ?_⟩
  · intro hvalid
    simp [run_diagnostic, hvalid]
  · intro e hvalid hdns
    simp only [run_diagnostic, hvalid, Bool.not_true, Bool.false_eq_true, if_false, hc, hdns]
    rfl
  · intro hvalid hdns
    simp only [run_diagnostic, hvalid, Bool.not_true, Bool.false_eq_true, if_false, hc, hdns]
    rfl
  · intro ip rest hvalid hdns hclosed
    have hfilter : (candidatePorts (parse_user_input input)).filter
        (fun p => tcpOpen (ip ++ ':' :: Nat.toDigits 10 p)) = [] := by
      rw [List.filter_eq_nil_iff]
      intro p hp
      simp [hclosed p hp]
    have hmap : (candidatePorts (parse_user_input input)).map
        (fun p => (⟨p, tcpOpen (ip ++ ':' :: Nat.toDigits 10 p)⟩ : PortScanResult)) =
        (candidatePorts (parse_user_input input)).map (fun p => ⟨p, false⟩) :=
      List.map_congr_left (fun p hp => by rw [hclosed p hp])
    have hrun := run_diagnostic_after_dns input resolve tcpOpen discover cancel hc
      hvalid ip rest hdns
    rw [hfilter] at hrun
    simp only [List.length_nil, eq_self_iff_true, if_true] at hrun
    rw [hmap] at hrun
    refine ⟨hrun, ?_⟩
    have hsteps : (run_diagnostic input resolve tcpOpen discover cancel).steps =
        [⟨.ValidateInput, .Success⟩, ⟨.ResolveDns, .Success⟩, ⟨.ScanPorts, .Failed⟩] := by
      rw [hrun]
    rw [hsteps]
    decide

end Claims

section Claims

open Diagnostics Opcua

/-- A resolver oracle that answers every query with one address. -/
def exResolve : Str → Except Str (List Str) := fun _ => .ok ["10.0.0.5".toList]

/-- A TCP oracle with every port closed. -/
def exTcpClosed : Str → Bool := fun _ => false

/-- A discovery oracle that always errors. -/
def exDiscoverFail : Str → Except Str (List EndpointInfo) := fun _ => .error ("no".toList)

/-- A cancellation token that is never set. -/
def exCancelNever : Nat → Bool := fun _ => false

/-- C4 witness: an invalid-scheme input stops after the failed
validation step; a valid hostname whose candidate ports are all closed
stops after a failed `ScanPorts` step. -/
theorem run_diagnostic_fails_fast_witness :
    (run_diagnostic ("http://x".toList) exResolve exTcpClosed exDiscoverFail exCancelNever =
      { steps := [⟨.ValidateInput, .Failed⟩], overall_success := false,
        open_ports := [], recommended_url := none, endpoints := [] }) ∧
    (run_diagnostic ("myhost".toList) exResolve exTcpClosed exDiscoverFail exCancelNever =
      { steps := [⟨.ValidateInput, .Success⟩, ⟨.ResolveDns, .Success⟩, ⟨.ScanPorts, .Failed⟩],
        overall_success := false,
        open_ports := (candidatePorts (parse_user_input ("myhost".toList))).map
          fun p => ⟨p, false⟩,
        recommended_url := none, endpoints := [] }) :=
  ⟨(run_diagnostic_fails_fast ("http://x".toList) exResolve exTcpClosed exDiscoverFail
      exCancelNever (fun _ => rfl)).1 (by decide),
   ((run_diagnostic_fails_fast ("myhost".toList) exResolve exTcpClosed exDiscoverFail
      exCancelNever (fun _ => rfl)).2.2.2 ("10.0.0.5".toList) []
      (by decide) rfl (fun p _ => rfl)).1⟩

/-- C5: with no cancellation, after a valid parse and successful DNS
resolution, the `DiscoverEndpoints` step tries each open port in order:
if the first open port whose discovery yields a non-empty endpoint list
is `p` (every earlier open port failing or yielding no endpoints), the
result carries exactly that port's endpoints, `overall_success = true`,
`recommended_url` equal to the first endpoint's URL, and a `Success`
final step; if instead every open port fails to yield endpoints, the
final step is a `Warning` and `overall_success` stays `false`. -/
theorem run_diagnostic_discovery (input : Str)
    (resolve : Str → Except Str (List Str)) (tcpOpen : Str → Bool)
    (discover : Str → Except Str (List EndpointInfo))
    (cancel : Nat → Bool) (hc : ∀ n, cancel n = false)
    (hvalid : (parse_user_input input).is_valid = true)
    (ip : Str) (rest : List Str)
    (hdns : resolve ((parse_user_input input).host ++ ":4840".toList) = .ok (ip :: rest)) :
    (∀ (before : List Nat) (p : Nat) (after : List Nat) (e : EndpointInfo)
        (es : List EndpointInfo),
      (candidatePorts (parse_user_input input)).filter
        (fun q => tcpOpen (ip ++ ':' :: Nat.toDigits 10 q)) = before ++ p :: after →
      (∀ q ∈ before, discFails discover ((parse_user_input input).to_url q)) →
      discover ((parse_user_input input).to_url p) = .ok (e :: es) →
      run_diagnostic input resolve tcpOpen discover cancel =
        { steps := [⟨.ValidateInput, .Success⟩, ⟨.ResolveDns, .Success⟩,
            ⟨.ScanPorts, .Success⟩, ⟨.DiscoverEndpoints, .Success⟩],
          overall_success := true,
          open_ports := (candidatePorts (parse_user_input input)).map
            (fun q => ⟨q, tcpOpen (ip ++ ':' :: Nat.toDigits 10 q)⟩),
          recommended_url := some e.endpoint_url,
          endpoints := e :: es }) ∧
    ((candidatePorts (parse_user_input input)).filter
        (fun q => tcpOpen (ip ++ ':' :: Nat.toDigits 10 q)) ≠ [] →
      (∀ q ∈ (candidatePorts (parse_user_input input)).filter
          (fun q => tcpOpen (ip ++ ':' :: Nat.toDigits 10 q)),
        discFails discover ((parse_user_input input).to_url q)) →
      run_diagnostic input resolve tcpOpen discover cancel =
        { steps := [⟨.ValidateInput, .Success⟩, ⟨.ResolveDns, .Success⟩,
            ⟨.ScanPorts, .Success⟩, ⟨.DiscoverEndpoints, .Warning⟩],
          overall_success := false,
          open_ports := (candidatePorts (parse_user_input input)).map
            (fun q => ⟨q, tcpOpen (ip ++ ':' :: Nat.toDigits 10 q)⟩),
          recommended_url := none, endpoints := [] }) := by
  constructor
  · intro before p after e es hfe hbef hdisc
    have hrun := run_diagnostic_after_dns input resolve tcpOpen discover cancel hc
      hvalid ip rest hdns
    rw [hfe] at hrun
    rw [if_neg (by simp)] at hrun
    have hm : (before ++ p :: after).map (fun q => (⟨q, true⟩ : PortScanResult)) =
        before.map (fun q => (⟨q, true⟩ : PortScanResult)) ++
          (⟨p, true⟩ :: after.map (fun q => (⟨q, true⟩ : PortScanResult))) := by
      simp
    rw [hm] at hrun
    rw [discover_loop_skips (parse_user_input input) discover cancel hc
      (before.map (fun q => (⟨q, true⟩ : PortScanResult)))
      (⟨p, true⟩ :: after.map (fun q => (⟨q, true⟩ : PortScanResult))) _
      (by
        intro pr hpr
        obtain ⟨q, hq, rfl⟩ := List.mem_map.mp hpr
        exact hbef q hq)] at hrun
    rw [discover_loop_found (parse_user_input input) discover cancel hc
      ⟨p, true⟩ (after.map (fun q => (⟨q, true⟩ : PortScanResult))) _ e es hdisc] at hrun
    exact hrun
  · intro hne hfail
    have hrun := run_diagnostic_after_dns input resolve tcpOpen discover cancel hc
      hvalid ip rest hdns
    rw [if_neg (by
      intro h0
      exact hne (List.length_eq_zero.mp h0))] at hrun
    rw [discover_loop_all_fail (parse_user_input input) discover cancel hc
      (((candidatePorts (parse_user_input input)).filter
        (fun q => tcpOpen (ip ++ ':' :: Nat.toDigits 10 q))).map
          (fun q => (⟨q, true⟩ : PortScanResult))) _
      (by
        intro pr hpr
        obtain ⟨q, hq, rfl⟩ := List.mem_map.mp hpr
        exact hfail q hq)] at hrun
    exact hrun

end Claims

section Claims

open Diagnostics Opcua

/-- A TCP oracle with every port open. -/
def exTcpOpenAll : Str → Bool := fun _ => true

/-- A concrete discovered endpoint. -/
def exEndpoint : EndpointInfo :=
  { security_policy_name := "None".toList, security_mode := "None".toList,
    has_certificate := false, user_tokens := [],
    endpoint_url := "opc.tcp://myhost:4840".toList }

/-- A discovery oracle that always returns one endpoint. -/
def exDiscoverOne : Str → Except Str (List EndpointInfo) := fun _ => .ok [exEndpoint]

/-- C5 witness: diagnosing `myhost:4840` with its single candidate port
open and a discovery yielding one endpoint ends with a `Success`
`DiscoverEndpoints` step, `overall_success = true`, and the first
endpoint's URL recommended; with a discovery that always errors, the
final step is a `Warning` and overall success stays `false`. -/
theorem run_diagnostic_discovery_witness :
    (run_diagnostic ("myhost:4840".toList) exResolve exTcpOpenAll exDiscoverOne exCancelNever =
      { steps := [⟨.ValidateInput, .Success⟩, ⟨.ResolveDns, .Success⟩,
          ⟨.ScanPorts, .Success⟩, ⟨.DiscoverEndpoints, .Success⟩],
        overall_success := true,
        open_ports := (candidatePorts (parse_user_input ("myhost:4840".toList))).map
          (fun q => ⟨q, exTcpOpenAll ("10.0.0.5".toList ++ ':' :: Nat.toDigits 10 q)⟩),
        recommended_url := some exEndpoint.endpoint_url,
        endpoints := [exEndpoint] }) ∧
    (run_diagnostic ("myhost:4840".toList) exResolve exTcpOpenAll exDiscoverFail exCancelNever =
      { steps := [⟨.ValidateInput, .Success⟩, ⟨.ResolveDns, .Success⟩,
          ⟨.ScanPorts, .Success⟩, ⟨.DiscoverEndpoints, .Warning⟩],
        overall_success := false,
        open_ports := (candidatePorts (parse_user_input ("myhost:4840".toList))).map
          (fun q => ⟨q, exTcpOpenAll ("10.0.0.5".toList ++ ':' :: Nat.toDigits 10 q)⟩),
        recommended_url := none, endpoints := [] }) :=
  ⟨(run_diagnostic_discovery ("myhost:4840".toList) exResolve exTcpOpenAll exDiscoverOne
      exCancelNever (fun _ => rfl) (by decide) ("10.0.0.5".toList) [] rfl).1
      [] 4840 [] exEndpoint [] (by decide)
      (fun q hq => absurd hq (List.not_mem_nil q)) rfl,
   (run_diagnostic_discovery ("myhost:4840".toList) exResolve exTcpOpenAll exDiscoverFail
      exCancelNever (fun _ => rfl) (by decide) ("10.0.0.5".toList) [] rfl).2
      (by decide) (fun q _ es h => nomatch h)⟩

end Claims
